import Mathlib

/-!
Verification of the surface-grid Conway example (`examples/conway.rs`) against
its specification.  The example drives a cube-sphere grid library: the library
itself (grid storage, topology, geographic mapping, parallel step engine) is
not part of the example's source, so those operations are modelled from the
specification, parameterised over the parts the spec leaves abstract (the
cube-sphere topology and the geographic-to-cell mapping).  Everything the
example itself contains — the transition closure, the buffer-swap pattern, the
equirectangular projection, the pixel writes and the resize handler — is
embedded directly from the source.
-/

/-- Number of `true` values in a list of booleans, as computed by the example:
`[...].into_iter().filter(|s| **s).count()`. -/
def countAlive (l : List Bool) : Nat :=
  (l.filter (fun s => s)).length

/-- The transition closure the example passes to
`set_from_neighbours_diagonals_par` (conway.rs lines 74–91).  The parameter
names follow the source: `|s1, s2, s3, s4, current, s6, s7, s8, s9|`, the
fifth parameter being named `current`, and the neighbour count taken over
`[s1, s2, s3, s4, s6, s7, s8, s9]`. -/
def conwayTransition (s1 s2 s3 s4 current s6 s7 s8 s9 : Bool) : Bool :=
  let count := countAlive [s1, s2, s3, s4, s6, s7, s8, s9]
  if count < 2 then false
  else if count > 3 then false
  else if current && count == 2 then true
  else if count == 3 then true
  else false

/-- The transition body factored through the neighbour count: the closure's
result as a function of the current value and the count alone. -/
def conwayOfCount (current : Bool) (count : Nat) : Bool :=
  if count < 2 then false
  else if count > 3 then false
  else if current && count == 2 then true
  else if count == 3 then true
  else false

theorem conwayTransition_eq_ofCount (s1 s2 s3 s4 c s6 s7 s8 s9 : Bool) :
    conwayTransition s1 s2 s3 s4 c s6 s7 s8 s9 =
      conwayOfCount c (countAlive [s1, s2, s3, s4, s6, s7, s8, s9]) := rfl

/-- The transition rule as claim C1 words it: the ninth argument taken as the
current cell value and the first eight counted as the neighbours.  This
definition follows the claim's words, for comparison with `conwayTransition`
which follows the source. -/
def ninthArgCurrentRule (s1 s2 s3 s4 s5 s6 s7 s8 s9 : Bool) : Bool :=
  let k := countAlive [s1, s2, s3, s4, s5, s6, s7, s8]
  (k == 3) || (s9 && (k == 2))

/-- C1 (counterexample): the example's closure does not treat its ninth
parameter as the current cell value with its first eight as the neighbours.
At the input `(true, true, true, false, true, false, false, false, false)`
the closure returns `true` (the fifth argument is the current value and the
other eight contain exactly three alive cells), while the rule the claim
describes returns `false` (four of the first eight arguments are alive). -/
theorem conway_ninth_current_cex :
    conwayTransition true true true false true false false false false ≠
      ninthArgCurrentRule true true true false true false false false false := by
  decide

/-- C1 (amended): the closure passed to `set_from_neighbours_diagonals_par`
uses its FIFTH parameter (named `current` in the source) as the current cell
value in the survival test, and counts exactly the other eight parameters
(the first through fourth and the sixth through ninth) as the neighbours:
its result is alive iff that count is 3, or the fifth argument is alive and
the count is 2. -/
theorem conway_fifth_current (s1 s2 s3 s4 s5 s6 s7 s8 s9 : Bool) :
    conwayTransition s1 s2 s3 s4 s5 s6 s7 s8 s9 =
      (let k := countAlive [s1, s2, s3, s4, s6, s7, s8, s9]
       (k == 3) || (s5 && (k == 2))) := by
  revert s1 s2 s3 s4 s5 s6 s7 s8 s9
  decide

/-- C2: the closure computes the canonical Game of Life rule.  Taking `c` to
be the argument it treats as the current cell value (the fifth) and `k` the
number of alive values among the other eight arguments, the result is alive
iff `k = 3`, or `c` is alive and `k = 2`; every other combination yields
dead. -/
theorem conway_canonical_rule (s1 s2 s3 s4 c s6 s7 s8 s9 : Bool) :
    conwayTransition s1 s2 s3 s4 c s6 s7 s8 s9 = true ↔
      (countAlive [s1, s2, s3, s4, s6, s7, s8, s9] = 3 ∨
        (c = true ∧ countAlive [s1, s2, s3, s4, s6, s7, s8, s9] = 2)) := by
  revert s1 s2 s3 s4 c s6 s7 s8 s9
  decide

/-- C7: if the argument the closure treats as the current cell value (the
fifth) is alive and all eight neighbour arguments are dead, the closure
returns dead: an isolated alive cell dies. -/
theorem isolated_cell_death :
    conwayTransition false false false false true false false false false = false := by
  decide

/-- C9: the closure's result depends on its eight neighbour arguments (all
parameters except the fifth, the one it treats as the current cell value)
only through the count of alive values among them; hence it is invariant
under every permutation of those eight arguments. -/
theorem neighbour_count_invariance
    (a1 a2 a3 a4 a5 a6 a7 a8 a9 b1 b2 b3 b4 b5 b6 b7 b8 b9 : Bool)
    (hc : a5 = b5)
    (hk : countAlive [a1, a2, a3, a4, a6, a7, a8, a9] =
          countAlive [b1, b2, b3, b4, b6, b7, b8, b9]) :
    conwayTransition a1 a2 a3 a4 a5 a6 a7 a8 a9 =
      conwayTransition b1 b2 b3 b4 b5 b6 b7 b8 b9 := by
  rw [conwayTransition_eq_ofCount, conwayTransition_eq_ofCount, hc, hk]

/-- C9 witness: two argument vectors with the same fifth (current) value and
the same neighbour count but different neighbour placements yield the same
result. -/
theorem neighbour_count_invariance_witness :
    (true = true ∧
      countAlive [true, false, false, false, false, false, true, false] =
        countAlive [false, true, false, false, true, false, false, false]) ∧
    conwayTransition true false false false true false false true false =
      conwayTransition false true false false true true false false false :=
  ⟨⟨rfl, by decide⟩,
    neighbour_count_invariance true false false false true false false true false
      false true false false true true false false false rfl (by decide)⟩

/-- Modelled from the spec: the contents of a `CubeSphereGrid<T, N>`, viewed
as a total map from cell addresses to values.  The address type and the
cube-sphere topology live in the library, which is not part of the example's
source, so both are kept abstract: `P` is the address type and a neighbours
function `P → Fin 8 → P` gives each address its eight neighbours in the fixed
order north, north-east, east, south-east, south, south-west, west,
north-west. -/
def SGrid (P T : Type) : Type := P → T

/-- Modelled from the spec: `set_from_neighbours_diagonals_par(source,
transition)` — for every cell address, computes the transition function on
the nine values read from `source` at the eight neighbouring addresses and at
the address itself, and stores the result at that address in the destination
grid.  Parallel evaluation order is immaterial: each destination cell is a
pure function of the source grid. -/
def set_from_neighbours_diagonals_par {P T : Type} (nb : P → Fin 8 → P)
    (source : SGrid P T)
    (transition : T → T → T → T → T → T → T → T → T → T) : SGrid P T :=
  fun p =>
    transition (source (nb p 0)) (source (nb p 1)) (source (nb p 2))
      (source (nb p 3)) (source (nb p 4)) (source (nb p 5))
      (source (nb p 6)) (source (nb p 7)) (source p)

/-- C5: a dead closure input stays dead, and the all-dead grid is a fixed
point of the generation step: if all nine boolean inputs to the closure are
false it returns false, and stepping the everywhere-default (dead) grid
yields the everywhere-dead grid, for every address type and every neighbour
assignment. -/
theorem all_dead_fixed_point :
    conwayTransition false false false false false false false false false = false ∧
    ∀ (P : Type) (nb : P → Fin 8 → P),
      set_from_neighbours_diagonals_par nb (fun _ => false) conwayTransition =
        fun _ => false :=
  ⟨rfl, fun _ _ => funext fun _ => rfl⟩

/-- C6: an all-alive closure input dies (eight alive neighbours exceed the
survival threshold of three), and stepping a grid in which every cell is
alive yields a grid in which every cell is dead, for every address type and
every neighbour assignment. -/
theorem all_alive_collapse :
    conwayTransition true true true true true true true true true = false ∧
    ∀ (P : Type) (nb : P → Fin 8 → P),
      set_from_neighbours_diagonals_par nb (fun _ => true) conwayTransition =
        fun _ => false :=
  ⟨rfl, fun _ _ => funext fun _ => rfl⟩

/-- The grid part of the example's RedrawRequested handler (conway.rs lines
74–94): `buffer2` is overwritten with one generation computed from `buffer1`
via `set_from_neighbours_diagonals_par`, then the two buffers are swapped by
`mem::swap`.  The state carries the two buffers by role; the pair is
`(buffer1, buffer2)`. -/
def redrawBuffers {P : Type} (nb : P → Fin 8 → P)
    (buffers : SGrid P Bool × SGrid P Bool) : SGrid P Bool × SGrid P Bool :=
  let buffer1 := buffers.1
  let buffer2 := set_from_neighbours_diagonals_par nb buffer1 conwayTransition
  (buffer2, buffer1)

/-- C3: in every generation step of the event loop the source grid is
`buffer1` and the destination is `buffer2`, two distinct components of the
state, and after the step the two buffers exchange roles without copying:
the resulting state is exactly `(step of old buffer1, old buffer1)` — the new
`buffer2` IS the old `buffer1`, and the old contents of `buffer2` are never
read (the result does not depend on them). -/
theorem redraw_swaps_buffers {P : Type} (nb : P → Fin 8 → P)
    (b1 b2 : SGrid P Bool) :
    redrawBuffers nb (b1, b2) =
      (set_from_neighbours_diagonals_par nb b1 conwayTransition, b1) := rfl

/-- Outcome of the example's `WindowEvent::Resized` handler (conway.rs lines
56–68): the stored size after the event, the argument of the
`pixels.resize_buffer` call if one was made, the argument of the
`pixels.resize_surface` call if one was made, and whether a redraw was
requested. -/
structure ResizeOutcome where
  size : Nat × Nat
  bufferResized : Option (Nat × Nat)
  surfaceResized : Option (Nat × Nat)
  redrawRequested : Bool
deriving DecidableEq, Repr

/-- The `WindowEvent::Resized` handler: if both dimensions of the new window
size are nonzero, the stored size is replaced and the pixel buffer and
surface are resized to it; in every case a redraw is requested. -/
def handleResized (size : Nat × Nat) (w h : Nat) : ResizeOutcome :=
  if w ≠ 0 ∧ h ≠ 0 then
    ⟨(w, h), some (w, h), some (w, h), true⟩
  else
    ⟨size, none, none, true⟩

/-- C10: a resize event with a zero width or a zero height leaves the stored
size unchanged and makes no `resize_buffer` or `resize_surface` call, while
still requesting a redraw; and whenever the stored size changes, both new
dimensions were nonzero. -/
theorem resize_zero_ignored (size : Nat × Nat) (w h : Nat) :
    (w = 0 ∨ h = 0 → handleResized size w h = ⟨size, none, none, true⟩) ∧
    ((handleResized size w h).size ≠ size → w ≠ 0 ∧ h ≠ 0) ∧
    (handleResized size w h).redrawRequested = true := by
  constructor
  · intro h0
    rw [handleResized, if_neg]
    rintro ⟨hw, hh⟩
    rcases h0 with h0 | h0 <;> simp_all
  constructor
  · intro hne
    by_contra hz
    rw [handleResized, if_neg hz] at hne
    exact hne rfl
  · rw [handleResized]
    split <;> rfl

/-- C10 witness: a resize to width 0 and height 5 from stored size (720, 480)
changes nothing but still requests a redraw. -/
theorem resize_zero_ignored_witness :
    handleResized (720, 480) 0 5 = ⟨(720, 480), none, none, true⟩ :=
  (resize_zero_ignored (720, 480) 0 5).1 (Or.inl rfl)

/-- The latitude the example computes for pixel row `y` of a frame of height
`h` (conway.rs line 105): `(y as f64 / size.height as f64) * PI - PI / 2.0`,
modelled over the reals.  It depends only on the row, not the column. -/
noncomputable def latitude (y h : Nat) : ℝ :=
  ((y : ℝ) / (h : ℝ)) * Real.pi - Real.pi / 2

/-- The longitude the example computes for pixel column `x` of a frame of
width `w` (conway.rs line 106): `(x as f64 / size.width as f64) * PI * 2.0`,
modelled over the reals.  It depends only on the column, not the row. -/
noncomputable def longitude (x w : Nat) : ℝ :=
  ((x : ℝ) / (w : ℝ)) * Real.pi * 2

/-- C4: for every frame pixel (x, y) with x < width and y < height, the
latitude the example passes to `from_geographic` lies in [−π/2, π/2] and the
longitude lies in [0, 2π); by definition the latitude depends only on y and
the longitude only on x, so the example never passes `from_geographic` an
input outside the documented ranges. -/
theorem projection_in_range (x y w h : Nat) (hx : x < w) (hy : y < h) :
    (-(Real.pi / 2) ≤ latitude y h ∧ latitude y h ≤ Real.pi / 2) ∧
    (0 ≤ longitude x w ∧ longitude x w < Real.pi * 2) := by
  have hw : (0 : ℝ) < (w : ℝ) := by exact_mod_cast Nat.lt_of_le_of_lt (Nat.zero_le x) hx
  have hh : (0 : ℝ) < (h : ℝ) := by exact_mod_cast Nat.lt_of_le_of_lt (Nat.zero_le y) hy
  have hy0 : (0 : ℝ) ≤ (y : ℝ) / (h : ℝ) := by positivity
  have hy1 : (y : ℝ) / (h : ℝ) < 1 := by
    rw [div_lt_one hh]
    exact_mod_cast hy
  have hx0 : (0 : ℝ) ≤ (x : ℝ) / (w : ℝ) := by positivity
  have hx1 : (x : ℝ) / (w : ℝ) < 1 := by
    rw [div_lt_one hw]
    exact_mod_cast hx
  have hpi := Real.pi_pos
  refine ⟨⟨?_, ?_⟩, ?_, ?_⟩
  · rw [latitude]
    nlinarith
  · rw [latitude]
    nlinarith
  · rw [longitude]
    positivity
  · rw [longitude]
    nlinarith

/-- C4 witness: the pixel (x, y) = (1, 0) of a 2×2 frame yields a latitude in
[−π/2, π/2] and a longitude in [0, 2π). -/
theorem projection_in_range_witness :
    (1 : Nat) < 2 ∧ (0 : Nat) < 2 ∧
    ((-(Real.pi / 2) ≤ latitude 0 2 ∧ latitude 0 2 ≤ Real.pi / 2) ∧
      (0 ≤ longitude 1 2 ∧ longitude 1 2 < Real.pi * 2)) :=
  ⟨by decide, by decide, projection_in_range 1 0 2 2 (by decide) (by decide)⟩

/-- A single byte write into the frame, modelling `frame[j] = v`.  The frame
(the `pixels` crate's buffer, external to the core) is modelled as a total
map from byte index to byte value. -/
def store (f : Nat → Nat) (j v : Nat) : Nat → Nat :=
  fun j2 => if j2 = j then v else f j2

/-- The four byte writes of one pixel body (conway.rs lines 112–121), at base
index `i`: the three colour channels are 255 when the sampled value is alive
and 0 when it is dead, and the alpha channel at `i + 3` is 255. -/
def writeQuad (i : Nat) (value : Bool) (f : Nat → Nat) : Nat → Nat :=
  store
    (if value then
      store (store (store f i 255) (i + 1) 255) (i + 2) 255
    else
      store (store (store f i 0) (i + 1) 0) (i + 2) 0)
    (i + 3) 255

/-- One iteration of the inner pixel loop (conway.rs lines 101–121): the base
index is `i = (y * width + x) * 4` and the sampled value is
`buffer1[CubeSpherePoint::from_geographic(latitude, longitude)]`, abstracted
as `sample y x`. -/
def drawPixel (w : Nat) (sample : Nat → Nat → Bool) (y x : Nat)
    (f : Nat → Nat) : Nat → Nat :=
  writeQuad ((y * w + x) * 4) (sample y x) f

/-- The inner loop `for x in 0..size.width` at row `y`, processing the
columns `x = 0, …, n − 1` in order. -/
def renderRow (w : Nat) (sample : Nat → Nat → Bool) (y : Nat) :
    Nat → (Nat → Nat) → (Nat → Nat)
  | 0, f => f
  | Nat.succ x, f => drawPixel w sample y x (renderRow w sample y x f)

/-- The outer loop `for y in 0..size.height`, processing the rows
`y = 0, …, n − 1` in order, each over all `w` columns. -/
def renderRows (w : Nat) (sample : Nat → Nat → Bool) :
    Nat → (Nat → Nat) → (Nat → Nat)
  | 0, f => f
  | Nat.succ y, f => renderRow w sample y w (renderRows w sample y f)

/-- The whole frame-drawing loop nest of the RedrawRequested handler
(conway.rs lines 99–123) over a frame of width `w` and height `h`, starting
from frame contents `f`. -/
def renderFrame (w h : Nat) (sample : Nat → Nat → Bool)
    (f : Nat → Nat) : Nat → Nat :=
  renderRows w sample h f

/-- Expected byte `k` of a pixel whose sampled value is `value`: channel
bytes 0–2 are 255 for alive and 0 for dead, and the alpha byte 3 is always
255. -/
def pixelByte (value : Bool) (k : Nat) : Nat :=
  if k = 3 then 255 else if value then 255 else 0

theorem writeQuad_at (i : Nat) (value : Bool) (f : Nat → Nat) (k : Nat)
    (hk : k < 4) : writeQuad i value f (i + k) = pixelByte value k := by
  interval_cases k <;> cases value <;>
    simp only [writeQuad, store, pixelByte, Bool.false_eq_true, if_false,
      if_true] <;>
    split_ifs <;> first | rfl | omega | contradiction

theorem writeQuad_ne (i : Nat) (value : Bool) (f : Nat → Nat) (j : Nat)
    (hj : j < i ∨ i + 4 ≤ j) : writeQuad i value f j = f j := by
  cases value <;>
    simp only [writeQuad, store, Bool.false_eq_true, if_false, if_true] <;>
    split_ifs <;> first | rfl | omega

theorem renderRow_at (w : Nat) (sample : Nat → Nat → Bool) (y : Nat)
    (n : Nat) (f : Nat → Nat) (x k : Nat) (hx : x < n) (hk : k < 4) :
    renderRow w sample y n f ((y * w + x) * 4 + k) =
      pixelByte (sample y x) k := by
  induction n generalizing f with
  | zero => omega
  | succ m ih =>
    rw [renderRow, drawPixel]
    rcases Nat.lt_or_ge x m with hxm | hxm
    · rw [writeQuad_ne _ _ _ _ (Or.inl (by omega)), ih _ hxm]
    · have hxe : x = m := by omega
      subst hxe
      have : (y * w + x) * 4 + k = (y * w + x) * 4 + k := rfl
      exact writeQuad_at _ _ _ _ hk

theorem renderRow_untouched (w : Nat) (sample : Nat → Nat → Bool)
    (y2 : Nat) (n : Nat) (f : Nat → Nat) (y x k : Nat) (hyy : y ≠ y2)
    (hx : x < w) (hn : n ≤ w) (hk : k < 4) :
    renderRow w sample y2 n f ((y * w + x) * 4 + k) =
      f ((y * w + x) * 4 + k) := by
  induction n generalizing f with
  | zero => rfl
  | succ m ih =>
    have hsep : y * w + w ≤ y2 * w ∨ y2 * w + w ≤ y * w := by
      rcases Nat.lt_or_ge y y2 with h | h
      · left
        calc y * w + w = (y + 1) * w := by ring
          _ ≤ y2 * w := Nat.mul_le_mul_right w h
      · right
        have h2 : y2 < y := by omega
        calc y2 * w + w = (y2 + 1) * w := by ring
          _ ≤ y * w := Nat.mul_le_mul_right w h2
    rw [renderRow, drawPixel, writeQuad_ne _ _ _ _ (by omega)]
    exact ih f (by omega)

theorem renderRows_at (w : Nat) (sample : Nat → Nat → Bool) (n : Nat)
    (f : Nat → Nat) (y x k : Nat) (hy : y < n) (hx : x < w) (hk : k < 4) :
    renderRows w sample n f ((y * w + x) * 4 + k) =
      pixelByte (sample y x) k := by
  induction n generalizing f with
  | zero => omega
  | succ m ih =>
    rw [renderRows]
    rcases Nat.lt_or_ge y m with hym | hym
    · rw [renderRow_untouched _ _ _ _ _ _ _ _ (by omega) hx (le_refl w) hk,
        ih _ hym]
    · have hye : y = m := by omega
      subst hye
      exact renderRow_at _ _ _ _ _ _ _ hx hk

/-- C8: for every frame pixel (x, y) with x < width and y < height, the four
bytes the drawing loop leaves at index (y·width + x)·4 are determined solely
by the boolean value sampled from the current grid at
`from_geographic(latitude(y), longitude(x))`: the three colour bytes are 255
when that cell is alive and 0 when it is dead, and the alpha byte is always
255 — so any two pixels with equal sampled values receive identical bytes.
The grid contents and the library's `from_geographic` mapping are abstract
parameters; the bytes depend on them only through the sampled boolean. -/
theorem frame_pixel_bytes {P : Type} (grid : P → Bool)
    (fromGeographic : ℝ → ℝ → P) (w h x y : Nat) (f0 : Nat → Nat)
    (hx : x < w) (hy : y < h) :
    (renderFrame w h
        (fun yy xx => grid (fromGeographic (latitude yy h) (longitude xx w)))
        f0 ((y * w + x) * 4) =
      if grid (fromGeographic (latitude y h) (longitude x w)) then 255 else 0) ∧
    (renderFrame w h
        (fun yy xx => grid (fromGeographic (latitude yy h) (longitude xx w)))
        f0 ((y * w + x) * 4 + 1) =
      if grid (fromGeographic (latitude y h) (longitude x w)) then 255 else 0) ∧
    (renderFrame w h
        (fun yy xx => grid (fromGeographic (latitude yy h) (longitude xx w)))
        f0 ((y * w + x) * 4 + 2) =
      if grid (fromGeographic (latitude y h) (longitude x w)) then 255 else 0) ∧
    renderFrame w h
        (fun yy xx => grid (fromGeographic (latitude yy h) (longitude xx w)))
        f0 ((y * w + x) * 4 + 3) = 255 := by
  have hs := fun (k : Nat) (hk : k < 4) => renderRows_at w
    (fun yy xx => grid (fromGeographic (latitude yy h) (longitude xx w)))
    h f0 y x k hy hx hk
  refine ⟨?_, ?_, ?_, ?_⟩
  · have h0 := hs 0 (by omega)
    simpa [renderFrame, pixelByte] using h0
  · have h1 := hs 1 (by omega)
    simpa [renderFrame, pixelByte] using h1
  · have h2 := hs 2 (by omega)
    simpa [renderFrame, pixelByte] using h2
  · have h3 := hs 3 (by omega)
    simpa [renderFrame, pixelByte] using h3

/-- C8 witness: on a 1×1 frame over an everywhere-alive grid, the alpha byte
of pixel (0, 0) is 255. -/
theorem frame_pixel_bytes_witness :
    (0 : Nat) < 1 ∧ (0 : Nat) < 1 ∧
    renderFrame 1 1 (fun _ _ => true) (fun _ => 7) 3 = 255 :=
  ⟨by decide, by decide,
    (frame_pixel_bytes (fun (_ : Unit) => true) (fun _ _ => ()) 1 1 0 0
      (fun _ => 7) (by decide) (by decide)).2.2.2⟩
